import Mathlib

/-!
Verification of the GMSFS filesystem facade (GMSFSv2.go).

The Go package is a thin wrapper over OS filesystem calls.  We embed it
shallowly in two layers:

* a read-only oracle layer (`OSModel`): the OS primitives `os.Stat` and the
  open-directory/`ReadDir(-1)`/`entry.Info()` enumeration are modelled as
  functions from path strings to results.  An oracle outcome is either an
  entry, a not-found error (`os.IsNotExist` holds) or any other OS error
  (permission denied, I/O error, ...).  Different oracles model different
  filesystem contents and different OS enumeration orders.

* a concrete mutable-state layer (`FS`): for the mutating operations
  (`CopyFile`, `CopyDir`) the filesystem is a finite association list from
  component paths to objects, and each operation returns its result together
  with the successor state.

Paths handed to the embedded functions are taken post-`cleanPath`
normalisation: no claim under verification concerns `filepath.Clean` or the
drive-prefix stripping, which are applied up front by the Go code and do not
change any of the verified control flow.
-/

/-- Outcome class of a failing OS call: `notFound` is the class recognised by
`os.IsNotExist`; `other` is every other OS error (permission denied, ...). -/
inductive StatErr where
  | notFound
  | other
deriving DecidableEq

/-- What the OS reports for one filesystem entry (the data available from
`os.FileInfo` / `os.DirEntry` plus `entry.Info()`): base name, size in bytes,
mode bits, modification time (abstracted to a number) and directory flag. -/
structure OSEntry where
  name : String
  size : Nat
  mode : Nat
  mtime : Nat
  isDir : Bool
deriving DecidableEq

/-- Read-only model of the OS filesystem API used by the package:
`stat p` models `os.Stat(p)`; `readDirEntries p` models opening `p` and
enumerating its children via `ReadDir(-1)` together with each entry's
`Info()`, in the (arbitrary) order the OS reports them. -/
structure OSModel where
  stat : String → Except StatErr OSEntry
  readDirEntries : String → Except StatErr (List OSEntry)

/-- The package's `FileInfo` record (GMSFSv2.go lines 16-24).  The Go struct
also declares `Contents []FileInfo`, but no function in the source ever
writes or reads that field (it is always its zero value `nil`), so it is
omitted here — keeping it would make the record type recursive for no
observable behaviour. -/
structure FileInfo where
  Exists : Bool := false
  Size : Nat := 0
  Mode : Nat := 0
  LastModified : Nat := 0
  IsDir : Bool := false
  Name : String := ""
deriving DecidableEq

/-- Go's `filepath.Base` on Unix, step 1: strip trailing separators. -/
def dropTrailingSep (cs : List Char) : List Char :=
  ((cs.reverse).dropWhile (fun c => c = '/')).reverse

/-- Go's `filepath.Base` on Unix, step 2: keep everything after the last
remaining separator. -/
def lastComponent (cs : List Char) : List Char :=
  ((cs.reverse).takeWhile (fun c => c ≠ '/')).reverse

/-- Go's `filepath.Base` on Unix: `""` gives `"."`; otherwise trailing
slashes are stripped and the last path element is returned, with `"/"` for a
path consisting only of separators.  (The volume-name step is vacuous on
Unix.) -/
def baseName (path : String) : String :=
  if path = "" then "." else
  let cs := dropTrailingSep path.toList
  let last := lastComponent cs
  if last.isEmpty then "/" else String.mk last

/-- `filepath.Join(dir, name)` for an already-clean, non-empty `dir` and a
plain child `name`: concatenation with a single separator (Go additionally
re-cleans, which is the identity on such inputs). -/
def joinPath (dir name : String) : String :=
  if dir = "" then name else dir ++ "/" ++ name

/-- `Stat` (GMSFSv2.go lines 504-521): on OS-stat failure it returns the zero
`FileInfo` together with the error; on success a record with `Exists = true`
and `Name` set to the base name of the supplied path. -/
def Stat (os : OSModel) (name : String) : FileInfo × Option StatErr :=
  match os.stat name with
  | .error e => ({}, some e)
  | .ok st =>
    ({ Exists := true, Size := st.size, Mode := st.mode, LastModified := st.mtime,
       IsDir := st.isDir, Name := baseName name }, none)

/-- `FileExists` (GMSFSv2.go lines 179-187): `false` when the stat error is
the not-found class, `true` when the stat succeeds, and `false` for every
other stat error. -/
def FileExists (os : OSModel) (name : String) : Bool :=
  match os.stat name with
  | .error .notFound => false
  | .ok _ => true
  | .error .other => false

/-- `errorPrinter` (GMSFSv2.go lines 34-52).  The Go code returns early
(writes nothing) only when `os.Stat("GMSFS.Debug")` fails with an
`os.IsNotExist` error; when the stat succeeds, and also when it fails with
any other error, it falls through and appends one line to the dated log
file.  The `runtime.Caller` stack hint and the current time are inputs of
the model; the result is `some (logFileName, appendedLine)` when a line is
appended and `none` otherwise.  The `object` argument is, as in the source,
unused. -/
def errorPrinter (os : OSModel) (now stackHint : String)
    (log _object : String) : Option (String × String) :=
  match os.stat "GMSFS.Debug" with
  | .error .notFound => none
  | _ =>
    some ("GMSFS." ++ now ++ ".log", log ++ " stacktrace: " ++ stackHint ++ "\r\n")

/-- Lexicographic less-or-equal on code-point sequences.  Go's string `<`
compares byte-wise; UTF-8 preserves code-point order, so comparing
code points gives exactly Go's case-sensitive byte ordering. -/
def charListLe : List Char → List Char → Bool
  | [], _ => true
  | _ :: _, [] => false
  | a :: as, b :: bs =>
    if a.toNat < b.toNat then true
    else if b.toNat < a.toNat then false
    else charListLe as bs

/-- Go's `a <= b` on strings: ascending, case-sensitive byte order. -/
def strLe (a b : String) : Bool :=
  charListLe a.data b.data

/-- One step of the insertion sort modelling `sort.Slice`. -/
def orderedInsertBy {α : Type} (key : α → String) (a : α) : List α → List α
  | [] => [a]
  | b :: l =>
    if strLe (key a) (key b) then a :: b :: l else b :: orderedInsertBy key a l

/-- Sort by a string key, ascending.  `sort.Slice` promises exactly a
permutation of the input that is sorted by the supplied comparison;
insertion sort produces such a permutation. -/
def sortByKey {α : Type} (key : α → String) : List α → List α
  | [] => []
  | a :: l => orderedInsertBy key a (sortByKey key l)

/-- The `sort.Slice(dirs, ...)` call in `ReadDir` (GMSFSv2.go line 538):
a name-ascending reordering of the entries. -/
def sortByName (l : List OSEntry) : List OSEntry :=
  sortByKey OSEntry.name l

/-- The conversion loop body of `ReadDir` (GMSFSv2.go lines 542-558): one
OS-reported entry becomes one `FileInfo` with `Exists = true`. -/
def entryToFileInfo (e : OSEntry) : FileInfo :=
  { Exists := true, Size := e.size, Mode := e.mode, LastModified := e.mtime,
    IsDir := e.isDir, Name := e.name }

/-- `ReadDir` (GMSFSv2.go lines 523-561): enumerate the directory (failing
if the open or the enumeration fails), sort the entries by name, and map
each to a `FileInfo`. -/
def ReadDir (os : OSModel) (dirName : String) : Except StatErr (List FileInfo) :=
  match os.readDirEntries dirName with
  | .error e => .error e
  | .ok dirs => .ok ((sortByName dirs).map entryToFileInfo)

/-- `ListFS` (GMSFSv2.go lines 354-381): empty list when the stat fails or
the path is not a directory; otherwise the `ReadDir` names, each prefixed
with `*` when the entry is a directory (and the empty list again when
`ReadDir` fails). -/
def ListFS (os : OSModel) (path : String) : List String :=
  match Stat os path with
  | (_, some _) => []
  | (fileInfo, none) =>
    if fileInfo.IsDir = false then []
    else
      match ReadDir os path with
      | .ok objs =>
        objs.map (fun fi => if fi.IsDir then "*" ++ fi.Name else fi.Name)
      | .error _ => []

/-- `RecurseFS` (GMSFSv2.go lines 383-420).  The Go function recurses
through the filesystem with no cycle detection and hence no termination
guarantee, so the model takes a fuel parameter that bounds the recursion
depth; with fuel `0` the call is not made.  Faithful details: a failing
top-level `Stat` or `ReadDir` returns the (empty) accumulator; the per-entry
`Stat` uses `filepath.Join` and a failure there is `continue`d over; the
emitted path strings are built with plain `path + "/" + name` concatenation;
directories contribute a `*`-prefixed line followed by their own recursive
listing. -/
def RecurseFS (os : OSModel) : Nat → String → List String
  | 0, _ => []
  | fuel + 1, path =>
    match Stat os path with
    | (_, some _) => []
    | (stat, none) =>
      match ReadDir os path with
      | .error _ => []
      | .ok temp =>
        let files : List FileInfo :=
          if stat.IsDir then
            temp.filterMap (fun nm =>
              match Stat os (joinPath path nm.Name) with
              | (_, some _) => none
              | (fi, none) => some fi)
          else []
        (files.map (fun f =>
          if f.IsDir then
            ("*" ++ (path ++ "/" ++ f.Name)) :: RecurseFS os fuel (path ++ "/" ++ f.Name)
          else [path ++ "/" ++ f.Name])).flatten

/-- `MkdirAll` (GMSFSv2.go lines 200-213): when `FileExists` answers `true`
the function returns `nil` immediately and the OS `os.MkdirAll` primitive is
never invoked; otherwise it invokes the primitive (whose outcome is the
oracle `osMkdirAllRes`) and passes its result through.  The second component
records whether the OS primitive was invoked. -/
def MkdirAll (os : OSModel) (osMkdirAllRes : String → Nat → Option StatErr)
    (path : String) (perm : Nat) : Option StatErr × Bool :=
  if FileExists os path = true then (none, false)
  else
    match osMkdirAllRes path perm with
    | some e => (some e, true)
    | none => (none, true)

/-! ### Concrete mutable filesystem state, for the mutating operations -/

/-- One filesystem object: a directory or a regular file with its mode bits
and (for files) its byte content.  Symbolic links play no role in the
verified claims and are not modelled. -/
structure FSObj where
  isDir : Bool
  mode : Nat
  content : List Nat
deriving DecidableEq

/-- A path as its list of name components (post-`cleanPath`, relative to the
root); `filepath.Join(p, n)` is `p ++ [n]` at this level. -/
abbrev FSPath := List String

/-- The filesystem state: a finite association list from paths to objects.
The list order doubles as the (arbitrary) OS enumeration order. -/
abbrev FS := List (FSPath × FSObj)

/-- The object at a path, if any (first binding wins). -/
def fsLookup (fs : FS) (p : FSPath) : Option FSObj :=
  match fs with
  | [] => none
  | e :: rest => if e.1 = p then some e.2 else fsLookup rest p

/-- Overwrite or add the binding of a path. -/
def fsInsert (fs : FS) (p : FSPath) (o : FSObj) : FS :=
  match fs with
  | [] => [(p, o)]
  | e :: rest => if e.1 = p then (p, o) :: rest else e :: fsInsert rest p o

/-- `some n` when `q` is the child of `p` named `n`. -/
def splitChild (p q : FSPath) : Option String :=
  if q.take p.length = p then
    match q.drop p.length with
    | [n] => some n
    | _ => none
  else none

/-- Immediate children of a directory path, in state order. -/
def fsChildren (fs : FS) (p : FSPath) : List (String × FSObj) :=
  fs.filterMap (fun e =>
    match splitChild p e.1 with
    | some n => some (n, e.2)
    | none => none)

/-- `os.ReadDir` enumeration at the state level: immediate children sorted
ascending by name, as the Go standard library guarantees for `os.ReadDir`. -/
def fsReadDir (fs : FS) (p : FSPath) : List (String × FSObj) :=
  sortByKey Prod.fst (fsChildren fs p)

/-- `os.Create` at the state level: truncate an existing regular file
(directories cannot be created over), or create a fresh file under an
existing directory; mode `0o666` before umask, abstracted to the literal
`438`. -/
def osCreate (fs : FS) (p : FSPath) : Except StatErr FS :=
  match fsLookup fs p with
  | some o =>
    if o.isDir then .error .other
    else .ok (fsInsert fs p ⟨false, o.mode, []⟩)
  | none =>
    if p = [] then .error .other
    else
      match fsLookup fs p.dropLast with
      | some parent =>
        if parent.isDir then .ok (fsInsert fs p ⟨false, 438, []⟩)
        else .error .notFound
      | none => .error .notFound

/-- `io.Copy`'s effect on the destination: replace the content of an
existing file, keeping its mode. -/
def osWriteContent (fs : FS) (p : FSPath) (content : List Nat) : FS :=
  match fsLookup fs p with
  | some o => fsInsert fs p ⟨o.isDir, o.mode, content⟩
  | none => fs

/-- `os.Chmod` at the state level. -/
def osChmod (fs : FS) (p : FSPath) (mode : Nat) : Option StatErr × FS :=
  match fsLookup fs p with
  | some o => (none, fsInsert fs p ⟨o.isDir, mode, o.content⟩)
  | none => (some .notFound, fs)

/-- `os.MkdirAll` at the state level, one missing prefix directory at a
time; an existing non-directory prefix is an error, and the state built so
far is kept (no rollback). -/
def osMkdirAllGo (fs : FS) (prefixes : List FSPath) (mode : Nat) :
    Option StatErr × FS :=
  match prefixes with
  | [] => (none, fs)
  | q :: rest =>
    match fsLookup fs q with
    | some o =>
      if o.isDir then osMkdirAllGo fs rest mode else (some .other, fs)
    | none => osMkdirAllGo (fsInsert fs q ⟨true, mode, []⟩) rest mode

/-- All non-empty prefixes of a path, shortest first. -/
def pathPrefixes (p : FSPath) : List FSPath :=
  (List.range p.length).map (fun i => p.take (i + 1))

/-- `os.MkdirAll` at the state level. -/
def osMkdirAll (fs : FS) (p : FSPath) (mode : Nat) : Option StatErr × FS :=
  osMkdirAllGo fs (pathPrefixes p) mode

/-- `CopyFile` (GMSFSv2.go lines 289-335) at the state level, following the
Go statement order: `os.Open(src)` (not-found when the source is missing —
and then nothing has been created), `os.Create(dst)`, `io.Copy` (which fails
when the source is a directory, leaving the freshly created empty
destination behind), `out.Sync` (no observable state effect in the model),
`os.Stat(src)` again, and `os.Chmod(dst, srcMode)`. -/
def CopyFile (fs : FS) (src dst : FSPath) : Option StatErr × FS :=
  match fsLookup fs src with
  | none => (some .notFound, fs)
  | some si =>
    match osCreate fs dst with
    | .error e => (some e, fs)
    | .ok fs1 =>
      if si.isDir then (some .other, fs1)
      else
        let fs2 := osWriteContent fs1 dst si.content
        match fsLookup fs2 src with
        | none => (some .notFound, fs2)
        | some si2 =>
          match osChmod fs2 dst si2.mode with
          | (some e, fs3) => (some e, fs3)
          | (none, fs3) => (none, fs3)

/-- Errors surfaced by `CopyDir`: a passed-through OS error, or one of the
two messages synthesised by the Go code, `"source is not a directory"` and
`"destination already exists"`. -/
inductive CopyErr where
  | osErr (e : StatErr)
  | srcNotDir
  | dstExists
deriving DecidableEq

mutual

/-- `CopyDir` (GMSFSv2.go lines 98-155) at the state level, following the Go
statement order: `os.Stat(src)` (error passed through), the
`"source is not a directory"` check, the destination check — `os.Stat(dst)`
followed by `return "destination already exists"` whenever that stat does
NOT fail with not-found, all before anything is created — then
`os.MkdirAll(dst, srcMode)` and the entry loop over `os.ReadDir(src)`,
which aborts on the first failing child.  Fuel bounds the (otherwise
unbounded) recursion depth. -/
def CopyDir : Nat → FS → FSPath → FSPath → Option CopyErr × FS
  | 0, fs, _, _ => (some (.osErr .other), fs)
  | fuel + 1, fs, src, dst =>
    match fsLookup fs src with
    | none => (some (.osErr .notFound), fs)
    | some si =>
      if si.isDir = false then (some .srcNotDir, fs)
      else
        match fsLookup fs dst with
        | some _ => (some .dstExists, fs)
        | none =>
          match osMkdirAll fs dst si.mode with
          | (some e, fs1) => (some (.osErr e), fs1)
          | (none, fs1) => copyDirEntries fuel fs1 src dst (fsReadDir fs1 src)

/-- The entry loop of `CopyDir`: recurse into child directories, copy child
files, abort on the first error. -/
def copyDirEntries : Nat → FS → FSPath → FSPath → List (String × FSObj) →
    Option CopyErr × FS
  | _, fs, _, _, [] => (none, fs)
  | fuel, fs, src, dst, (n, o) :: rest =>
    if o.isDir then
      match CopyDir fuel fs (src ++ [n]) (dst ++ [n]) with
      | (some e, fs1) => (some e, fs1)
      | (none, fs1) => copyDirEntries fuel fs1 src dst rest
    else
      match CopyFile fs (src ++ [n]) (dst ++ [n]) with
      | (some e, fs1) => (some (.osErr e), fs1)
      | (none, fs1) => copyDirEntries fuel fs1 src dst rest

end

/-- `RecurseFS` run against an oracle from which every child entry whose
per-entry `Stat` fails has been erased from its directory listing.  Equality
of the two runs expresses that such entries are skipped (`continue`) while
the remaining entries are still processed. -/
def purgeOS (os : OSModel) : OSModel :=
  { stat := os.stat
    readDirEntries := fun q =>
      match os.readDirEntries q with
      | .error e => .error e
      | .ok l => .ok (l.filter (fun e => ((Stat os (joinPath q e.name)).2).isNone)) }

/-! ### Concrete oracles and states used as witnesses -/

/-- The directory `/a` of the spec's worked example. -/
def entA : OSEntry := ⟨"a", 0, 493, 1, true⟩

/-- The subdirectory `/a/b` of the spec's worked example. -/
def entB : OSEntry := ⟨"b", 0, 493, 2, true⟩

/-- The 10-byte file `/a/f.txt` of the spec's worked example. -/
def entF : OSEntry := ⟨"f.txt", 10, 420, 3, false⟩

/-- The file `/a/b/g.txt` of the spec's worked example. -/
def entG : OSEntry := ⟨"g.txt", 3, 420, 4, false⟩

/-- Oracle for the spec's worked example: `/a` holds `f.txt` and the
subdirectory `b`, `/a/b` holds `g.txt`, nothing else exists, and the OS
deliberately enumerates `/a` out of name order. -/
def exOS : OSModel :=
  { stat := fun p =>
      if p = "/a" then .ok entA
      else if p = "/a/b" then .ok entB
      else if p = "/a/f.txt" then .ok entF
      else if p = "/a/b/g.txt" then .ok entG
      else .error .notFound
    readDirEntries := fun p =>
      if p = "/a" then .ok [entF, entB]
      else if p = "/a/b" then .ok [entG]
      else .error .notFound }

/-- Oracle for a filesystem behind an inaccessible parent directory: every
stat and every enumeration fails with a non-not-found (permission) error. -/
def permOS : OSModel :=
  { stat := fun _ => .error .other
    readDirEntries := fun _ => .error .other }

/-- Oracle holding a single regular file `f` at the root. -/
def fileOS : OSModel :=
  { stat := fun p =>
      if p = "f" then .ok ⟨"f", 4, 420, 0, false⟩ else .error .notFound
    readDirEntries := fun _ => .error .notFound }

/-- Child `b` of the traversal-error example: its directory entry is listed,
but statting it fails with a non-not-found error. -/
def entB2 : OSEntry := ⟨"b", 0, 493, 5, true⟩

/-- Child `c.txt` of the traversal-error example, statting fine. -/
def entC : OSEntry := ⟨"c.txt", 7, 420, 6, false⟩

/-- Oracle where `/a` lists the children `b` and `c.txt`, the per-entry stat
of `/a/b` fails, and `/a/c.txt` stats fine. -/
def skipOS : OSModel :=
  { stat := fun p =>
      if p = "/a" then .ok entA
      else if p = "/a/b" then .error .other
      else if p = "/a/c.txt" then .ok entC
      else .error .notFound
    readDirEntries := fun p =>
      if p = "/a" then .ok [entC, entB2]
      else .error .notFound }

/-- A concrete state: directory `s` containing the file `s/x.txt`, plus an
unrelated file `d` that can serve as an already-existing destination. -/
def fsEx : FS :=
  [(["s"], ⟨true, 493, []⟩),
   (["s", "x.txt"], ⟨false, 420, [1, 2]⟩),
   (["d"], ⟨false, 420, []⟩)]

/-! ### Claim theorems -/

/-- Claim C3, counterexample, refuting two parts of the claim at one
concrete input.  First, the gate: with every OS stat failing with a
permission class error the sentinel `GMSFS.Debug` does not exist (the
package's own existence test answers `false`), and yet `errorPrinter`
appends a log line.  Second, the contents: the appended line is exactly the
log message followed by the stack hint — the failing path `/locked/child`,
passed as the `object` argument, is ignored (the Go parameter is unused)
and does not occur anywhere in the line. -/
theorem errorPrinter_claim_cex :
    errorPrinter permOS "20240101_0101" "stk" "Open: permission denied"
        "/locked/child"
      = some ("GMSFS.20240101_0101.log",
              "Open: permission denied stacktrace: stk\r\n")
    ∧ FileExists permOS "GMSFS.Debug" = false
    ∧ ¬ List.IsInfix ("/locked/child").data
        ("Open: permission denied stacktrace: stk\r\n").data := by
  exact ⟨rfl, rfl, by decide⟩

/-- Claim C3, amended: `errorPrinter` appends exactly one line — holding the
error text and the operation label (both inside `log`) followed by the
caller stack hint, while the failing-path `obj` argument is ignored and
contributes nothing to the line — to the dated log file precisely when the
stat of the sentinel `GMSFS.Debug` does not fail with a not-found error; a
successful stat and any other stat error (e.g. permission denied) both
enable the write, so the gate is not "the sentinel exists". -/
theorem errorPrinter_logs_iff (os : OSModel) (now stackHint log obj : String) :
    errorPrinter os now stackHint log obj
      = some ("GMSFS." ++ now ++ ".log",
              log ++ " stacktrace: " ++ stackHint ++ "\r\n")
    ↔ os.stat "GMSFS.Debug" ≠ .error .notFound := by
  unfold errorPrinter
  rcases h : os.stat "GMSFS.Debug" with e | st
  · cases e <;> simp
  · simp

/-- Claim C4: `FileExists` answers `true` exactly when the OS stat succeeds;
it answers `false` both for the not-found error class and for every other
stat error, conflating the two failure classes into the single answer
`false`. -/
theorem FileExists_conflates_errors (os : OSModel) (name : String) :
    (∀ e, os.stat name = .ok e → FileExists os name = true)
    ∧ (os.stat name = .error .notFound → FileExists os name = false)
    ∧ (os.stat name = .error .other → FileExists os name = false) := by
  refine ⟨fun e h => ?_, fun h => ?_, fun h => ?_⟩ <;> simp [FileExists, h]

/-- Witness for C4: under an inaccessible parent every stat fails with the
permission class and `FileExists` still answers `false`, while a path whose
stat succeeds is reported `true`. -/
theorem FileExists_conflates_errors_witness :
    FileExists permOS "/locked/child" = false ∧ FileExists exOS "/a" = true :=
  ⟨(FileExists_conflates_errors permOS "/locked/child").2.2 rfl,
   (FileExists_conflates_errors exOS "/a").1 entA rfl⟩

/-- Claim C9: whenever `FileExists` answers `true` — the oracle makes no
distinction between files and directories here, so in particular when the
path is an existing regular file — `MkdirAll` returns success immediately
and the OS mkdir primitive is not invoked (second component `false`),
whatever that primitive would have answered. -/
theorem MkdirAll_noop_when_exists (os : OSModel)
    (osMkdirAllRes : String → Nat → Option StatErr) (path : String) (perm : Nat)
    (h : FileExists os path = true) :
    MkdirAll os osMkdirAllRes path perm = (none, false) := by
  simp [MkdirAll, h]

/-- Witness for C9: the path `f` exists as a regular file, the mkdir oracle
would report an error, and `MkdirAll` still succeeds without invoking it. -/
theorem MkdirAll_noop_when_exists_witness :
    MkdirAll fileOS (fun _ _ => some StatErr.other) "f" 493 = (none, false) :=
  MkdirAll_noop_when_exists fileOS (fun _ _ => some StatErr.other) "f" 493 rfl

/-- Claim C10: `Stat` succeeds (second component `none`) exactly when the
returned record has `Exists = true`; on any stat failure the record is the
zero `FileInfo`, whose `Exists` is `false`; and on success the record's
`Name` is the base name component of the supplied path. -/
theorem Stat_exists_invariant (os : OSModel) (name : String) :
    ((Stat os name).2 = none ↔ (Stat os name).1.Exists = true)
    ∧ (∀ e, (Stat os name).2 = some e → (Stat os name).1 = {})
    ∧ ((Stat os name).2 = none → (Stat os name).1.Name = baseName name)
    ∧ ({} : FileInfo).Exists = false := by
  unfold Stat
  rcases h : os.stat name with e | st <;> simp

/-- Witness for C10: a successful stat carries the base name of the supplied
path, and a failing stat returns the zero record. -/
theorem Stat_exists_invariant_witness :
    (Stat exOS "/a/f.txt").1.Name = baseName "/a/f.txt"
    ∧ (Stat permOS "/x").1 = {} :=
  ⟨(Stat_exists_invariant exOS "/a/f.txt").2.2.1 rfl,
   (Stat_exists_invariant permOS "/x").2.1 StatErr.other rfl⟩

/-- Claim C5: whenever the source stats as a directory and the destination
path already exists (its stat succeeds), `CopyDir` fails with the
`"destination already exists"` error and returns the state unchanged: the
check precedes `os.MkdirAll` and every copy, so nothing is created or
modified.  (Fuel `+ 1` only rules out the artificial out-of-fuel cutoff of
the model.) -/
theorem CopyDir_dest_exists_no_mutation (fuel : Nat) (fs : FS) (src dst : FSPath)
    (si d : FSObj) (hs : fsLookup fs src = some si) (hdir : si.isDir = true)
    (hd : fsLookup fs dst = some d) :
    CopyDir (fuel + 1) fs src dst = (some CopyErr.dstExists, fs) := by
  simp [CopyDir, hs, hdir, hd]

/-- Witness for C5: copying the directory `s` over the existing file `d`
fails with `dstExists` and leaves the state untouched. -/
theorem CopyDir_dest_exists_no_mutation_witness :
    CopyDir 1 fsEx ["s"] ["d"] = (some CopyErr.dstExists, fsEx) :=
  CopyDir_dest_exists_no_mutation 0 fsEx ["s"] ["d"]
    ⟨true, 493, []⟩ ⟨false, 420, []⟩ rfl rfl rfl

/-- Claim C6: when the source path does not exist, `CopyFile` fails with the
not-found error class and returns the state unchanged — `os.Open(src)` is
the first step, before `os.Create(dst)`, so the destination is never
created. -/
theorem CopyFile_missing_src (fs : FS) (src dst : FSPath)
    (h : fsLookup fs src = none) :
    CopyFile fs src dst = (some StatErr.notFound, fs) := by
  simp [CopyFile, h]

/-- Witness for C6: copying the non-existent `nope` fails not-found and the
state — in particular the destination `d2` — is untouched. -/
theorem CopyFile_missing_src_witness :
    CopyFile fsEx ["nope"] ["d2"] = (some StatErr.notFound, fsEx) :=
  CopyFile_missing_src fsEx ["nope"] ["d2"] rfl

/-- Claim C7: a path that exists but is not a directory makes `ListFS`
return the empty list rather than an error, and on a readable directory
`ListFS` returns exactly one name per `ReadDir` entry, `*`-prefixed for
subdirectories and bare for files. -/
theorem ListFS_names (os : OSModel) (path : String) :
    ((Stat os path).2 = none → (Stat os path).1.IsDir = false →
      ListFS os path = [])
    ∧ (∀ l, (Stat os path).1.IsDir = true → ReadDir os path = .ok l →
        ListFS os path
          = l.map (fun fi => if fi.IsDir then "*" ++ fi.Name else fi.Name)) := by
  constructor
  · intro h1 h2
    rcases h : os.stat path with e | st
    · simp [Stat, h] at h1
    · simp only [Stat, h] at h2
      simp only [ListFS, Stat, h] at *
      simp [h2]
  · intro l h1 h2
    rcases h : os.stat path with e | st
    · simp only [Stat, h] at h1
      simp at h1
    · simp only [Stat, h] at h1
      simp only [ListFS, Stat, h] at *
      simp [h1, h2]

/-- Witness for C7: `/a/f.txt` exists and is a file, giving the empty list;
`/a/b` is a readable directory and lists its one child file bare. -/
theorem ListFS_names_witness :
    ListFS exOS "/a/f.txt" = [] ∧ ListFS exOS "/a/b" = ["g.txt"] := by
  constructor
  · exact (ListFS_names exOS "/a/f.txt").1 rfl rfl
  · have h := (ListFS_names exOS "/a/b").2 [entryToFileInfo entG] rfl rfl
    simpa using h

/-- `charListLe` is reflexive. -/
theorem charListLe_refl : ∀ x : List Char, charListLe x x = true := by
  intro x
  induction x with
  | nil => rfl
  | cons a as ih => simp [charListLe, ih]

/-- `charListLe` is total. -/
theorem charListLe_total : ∀ x y : List Char,
    charListLe x y = true ∨ charListLe y x = true := by
  intro x
  induction x with
  | nil => intro y; left; rfl
  | cons a as ih =>
    intro y
    cases y with
    | nil => right; rfl
    | cons b bs =>
      rcases Nat.lt_trichotomy a.toNat b.toNat with h | h | h
      · left; simp [charListLe, h]
      · rcases ih bs with h2 | h2
        · left; simp [charListLe, h, Nat.lt_irrefl, h2]
        · right; simp [charListLe, h.symm, Nat.lt_irrefl, h2]
      · right; simp [charListLe, h]

/-- `charListLe` is transitive. -/
theorem charListLe_trans : ∀ x y z : List Char,
    charListLe x y = true → charListLe y z = true → charListLe x z = true := by
  intro x
  induction x with
  | nil => intro y z _ _; rfl
  | cons a as ih =>
    intro y z hxy hyz
    cases y with
    | nil => simp [charListLe] at hxy
    | cons b bs =>
      cases z with
      | nil => simp [charListLe] at hyz
      | cons c cs =>
        simp only [charListLe] at hxy hyz ⊢
        rcases Nat.lt_trichotomy a.toNat b.toNat with h1 | h1 | h1
        · rcases Nat.lt_trichotomy b.toNat c.toNat with h2 | h2 | h2
          · simp [Nat.lt_trans h1 h2]
          · simp [h2 ▸ h1]
          · simp [h2, Nat.lt_asymm h2, Nat.lt_irrefl] at hyz
        · rcases Nat.lt_trichotomy b.toNat c.toNat with h2 | h2 | h2
          · simp [h1 ▸ h2]
          · have hac : a.toNat = c.toNat := h1.trans h2
            simp [h1, Nat.lt_irrefl] at hxy
            simp [h2, Nat.lt_irrefl] at hyz
            simp [hac, Nat.lt_irrefl]
            exact ih bs cs hxy hyz
          · simp [h2, Nat.lt_asymm h2, Nat.lt_irrefl] at hyz
        · simp [h1, Nat.lt_asymm h1, Nat.lt_irrefl] at hxy

/-- `charListLe` is antisymmetric. -/
theorem charListLe_antisymm : ∀ x y : List Char,
    charListLe x y = true → charListLe y x = true → x = y := by
  intro x
  induction x with
  | nil =>
    intro y _ hyx
    cases y with
    | nil => rfl
    | cons b bs => simp [charListLe] at hyx
  | cons a as ih =>
    intro y hxy hyx
    cases y with
    | nil => simp [charListLe] at hxy
    | cons b bs =>
      simp only [charListLe] at hxy hyx
      rcases Nat.lt_trichotomy a.toNat b.toNat with h | h | h
      · simp [h, Nat.lt_asymm h, Nat.lt_irrefl] at hyx
      · simp [h, Nat.lt_irrefl] at hxy hyx
        have hab : a = b := Char.eq_of_val_eq (UInt32.toNat.inj h)
        rw [hab, ih bs hxy hyx]
      · simp [h, Nat.lt_asymm h, Nat.lt_irrefl] at hxy

/-- `strLe` is reflexive. -/
theorem strLe_refl (a : String) : strLe a a = true :=
  charListLe_refl a.data

/-- `strLe` is total. -/
theorem strLe_total (a b : String) : strLe a b = true ∨ strLe b a = true :=
  charListLe_total a.data b.data

/-- `strLe` is transitive. -/
theorem strLe_trans (a b c : String) :
    strLe a b = true → strLe b c = true → strLe a c = true :=
  charListLe_trans a.data b.data c.data

/-- `strLe` is antisymmetric. -/
theorem strLe_antisymm (a b : String) :
    strLe a b = true → strLe b a = true → a = b := by
  intro h1 h2
  have hd : a.data = b.data := charListLe_antisymm a.data b.data h1 h2
  cases a; cases b
  exact congrArg String.mk hd

/-- Inserting is a permutation of consing. -/
theorem orderedInsertBy_perm {α : Type} (key : α → String) (a : α) :
    ∀ l : List α, (orderedInsertBy key a l).Perm (a :: l) := by
  intro l
  induction l with
  | nil => exact List.Perm.refl _
  | cons b t ih =>
    unfold orderedInsertBy
    by_cases h : strLe (key a) (key b) = true
    · simp [h]
    · simp only [h, if_false]
      exact (ih.cons b).trans (List.Perm.swap a b t)

/-- The sort is a permutation of its input. -/
theorem sortByKey_perm {α : Type} (key : α → String) :
    ∀ l : List α, (sortByKey key l).Perm l
  | [] => List.Perm.refl _
  | a :: l =>
    (orderedInsertBy_perm key a (sortByKey key l)).trans
      ((sortByKey_perm key l).cons a)

/-- Inserting into a key-sorted list keeps it key-sorted. -/
theorem orderedInsertBy_sorted {α : Type} (key : α → String) (a : α)
    (l : List α) (hl : l.Pairwise (fun x y => strLe (key x) (key y) = true)) :
    (orderedInsertBy key a l).Pairwise
      (fun x y => strLe (key x) (key y) = true) := by
  induction l with
  | nil => simp [orderedInsertBy]
  | cons b t ih =>
    rcases List.pairwise_cons.mp hl with ⟨hb, ht⟩
    unfold orderedInsertBy
    by_cases h : strLe (key a) (key b) = true
    · simp only [h, if_true]
      refine List.pairwise_cons.mpr ⟨?_, hl⟩
      intro c hc
      rcases List.mem_cons.mp hc with rfl | hc
      · exact h
      · exact strLe_trans (key a) (key b) (key c) h (hb c hc)
    · simp only [h, if_false]
      refine List.pairwise_cons.mpr ⟨?_, ih ht⟩
      intro c hc
      have hmem := (orderedInsertBy_perm key a t).mem_iff.mp hc
      rcases List.mem_cons.mp hmem with rfl | hc2
      · rcases strLe_total (key c) (key b) with h2 | h2
        · exact absurd h2 h
        · exact h2
      · exact hb c hc2

/-- The sort output is key-sorted ascending. -/
theorem sortByKey_sorted {α : Type} (key : α → String) :
    ∀ l : List α,
      (sortByKey key l).Pairwise (fun x y => strLe (key x) (key y) = true)
  | [] => List.Pairwise.nil
  | a :: l => orderedInsertBy_sorted key a _ (sortByKey_sorted key l)

/-- Two key-sorted lists that are permutations of each other and have
pairwise-distinct keys are equal.  This is what makes the output of
`ReadDir` independent of the OS enumeration order, and makes any two
name-sorted reorderings (stable or not) agree on real directory contents. -/
theorem sorted_key_nodup_eq {α : Type} (key : α → String) :
    ∀ l1 l2 : List α, l1.Perm l2 →
      l1.Pairwise (fun x y => strLe (key x) (key y) = true) →
      l2.Pairwise (fun x y => strLe (key x) (key y) = true) →
      (l1.map key).Nodup → l1 = l2 := by
  intro l1
  induction l1 with
  | nil => intro l2 hp _ _ _; exact hp.nil_eq
  | cons a t ih =>
    intro l2 hp hs1 hs2 hnd
    cases l2 with
    | nil => exact absurd hp.symm (by simp)
    | cons b t2 =>
      have hmem_a : a ∈ b :: t2 := hp.subset (List.mem_cons_self a t)
      have hmem_b : b ∈ a :: t := hp.symm.subset (List.mem_cons_self b t2)
      have hs1c := List.pairwise_cons.mp hs1
      have hs2c := List.pairwise_cons.mp hs2
      have hnd2 : (key a :: List.map key t).Nodup := by
        simpa only [List.map_cons] using hnd
      have hnc := List.nodup_cons.mp hnd2
      have hab : a = b := by
        rcases List.mem_cons.mp hmem_b with h | h
        · exact h.symm
        · exfalso
          have h1 : strLe (key a) (key b) = true := hs1c.1 b h
          have h2 : strLe (key b) (key a) = true := by
            rcases List.mem_cons.mp hmem_a with h3 | h3
            · rw [h3]; exact strLe_refl (key b)
            · exact hs2c.1 a h3
          have hk : key a = key b := strLe_antisymm (key a) (key b) h1 h2
          exact hnc.1 (by rw [hk]; exact List.mem_map_of_mem key h)
      subst hab
      have ht : t = t2 := ih t2 hp.cons_inv hs1c.2 hs2c.2 hnc.2
      rw [ht]

/-- Claim C1: when the OS enumeration of a directory succeeds, `ReadDir`
succeeds with records that are exactly the images of the enumerated entries
(a permutation of them, one `FileInfo` per entry) with their names in
ascending lexicographic byte order (`strLe`); and for entries with
pairwise-distinct names — as the children of a real directory always are —
the result does not depend on the order in which the OS enumerated them. -/
theorem ReadDir_sorted (os : OSModel) (dirName : String) (entries : List OSEntry)
    (h : os.readDirEntries dirName = .ok entries) :
    ∃ l, ReadDir os dirName = .ok l
      ∧ List.Pairwise (fun a b : FileInfo => strLe a.Name b.Name = true) l
      ∧ l.Perm (entries.map entryToFileInfo)
      ∧ ∀ (os2 : OSModel) (entries2 : List OSEntry),
          os2.readDirEntries dirName = .ok entries2 → entries2.Perm entries →
          (entries.map OSEntry.name).Nodup →
          ReadDir os2 dirName = ReadDir os dirName := by
  refine ⟨(sortByName entries).map entryToFileInfo, ?_, ?_, ?_, ?_⟩
  · simp [ReadDir, h]
  · rw [List.pairwise_map]
    exact sortByKey_sorted OSEntry.name entries
  · exact (sortByKey_perm OSEntry.name entries).map entryToFileInfo
  · intro os2 entries2 h2 hperm hnd
    have hkey : sortByName entries2 = sortByName entries := by
      apply sorted_key_nodup_eq OSEntry.name
      · exact (sortByKey_perm OSEntry.name entries2).trans
          (hperm.trans (sortByKey_perm OSEntry.name entries).symm)
      · exact sortByKey_sorted OSEntry.name entries2
      · exact sortByKey_sorted OSEntry.name entries
      · exact (((sortByKey_perm OSEntry.name entries2).trans hperm).map
          OSEntry.name).symm.nodup hnd
    simp only [ReadDir, h, h2]
    rw [hkey]

/-- Witness for C1: the OS lists `/a` as `[f.txt, b]`, out of name order,
and `ReadDir` nevertheless answers with the records sorted `b` before
`f.txt`. -/
theorem ReadDir_sorted_witness :
    (∃ l, ReadDir exOS "/a" = .ok l
      ∧ List.Pairwise (fun a b : FileInfo => strLe a.Name b.Name = true) l
      ∧ l.Perm ([entF, entB].map entryToFileInfo)
      ∧ ∀ (os2 : OSModel) (entries2 : List OSEntry),
          os2.readDirEntries "/a" = .ok entries2 → entries2.Perm [entF, entB] →
          ([entF, entB].map OSEntry.name).Nodup →
          ReadDir os2 "/a" = ReadDir exOS "/a")
    ∧ ReadDir exOS "/a" = .ok [entryToFileInfo entB, entryToFileInfo entF] :=
  ⟨ReadDir_sorted exOS "/a" [entF, entB] rfl, rfl⟩

/-- Claim C2: on the worked example — `/a` holding the regular file `f.txt`
and the subdirectory `b`, `/a/b` holding the regular file `g.txt`, no
symlinks — `RecurseFS "/a"` returns exactly
`["*/a/b", "/a/b/g.txt", "/a/f.txt"]`: per level the sorted shallow-listing
order (`b` before `f.txt` even though the OS enumerated `f.txt` first), the
subdirectory `*`-prefixed and immediately followed by its own recursively
listed contents, and files as `parent/child` path strings.  Any fuel bound
of at least the tree depth `2` gives this result. -/
theorem RecurseFS_example (fuel : Nat) :
    RecurseFS exOS (fuel + 2) "/a" = ["*/a/b", "/a/b/g.txt", "/a/f.txt"] := rfl

/-- Claim C8, counterexample: in `skipOS` the directory `/a` lists `b`
before `c.txt` in per-level sorted order, the per-entry stat of `/a/b`
fails — yet `RecurseFS` does not stop there and return the (empty) list
accumulated so far: it skips `b` with `continue` and still emits the later
entry `/a/c.txt`. -/
theorem RecurseFS_continues_after_entry_error :
    skipOS.stat "/a/b" = .error .other
    ∧ (sortByName [entC, entB2]).map OSEntry.name = ["b", "c.txt"]
    ∧ RecurseFS skipOS 2 "/a" = ["/a/c.txt"]
    ∧ RecurseFS skipOS 2 "/a" ≠ [] :=
  ⟨rfl, rfl, rfl, by decide⟩

/-- `purgeOS` leaves `Stat` untouched. -/
theorem Stat_purgeOS (os : OSModel) (n : String) :
    Stat (purgeOS os) n = Stat os n := rfl

/-- Sorting commutes with filtering when the keys are pairwise distinct. -/
theorem sortByName_filter (p : OSEntry → Bool) (l : List OSEntry)
    (hnd : (l.map OSEntry.name).Nodup) :
    sortByName (l.filter p) = (sortByName l).filter p := by
  apply sorted_key_nodup_eq OSEntry.name
  · exact (sortByKey_perm OSEntry.name (l.filter p)).trans
      ((sortByKey_perm OSEntry.name l).symm.filter p)
  · exact sortByKey_sorted OSEntry.name (l.filter p)
  · exact (sortByKey_sorted OSEntry.name l).filter p
  · have hsub : ((l.filter p).map OSEntry.name).Sublist (l.map OSEntry.name) :=
      (List.filter_sublist l).map OSEntry.name
    exact ((sortByKey_perm OSEntry.name (l.filter p)).map OSEntry.name).symm.nodup
      (List.Nodup.sublist hsub hnd)

/-- The per-entry stat loop of `RecurseFS` keeps exactly the entries whose
stat succeeds, in order, each contributing its `Stat` record. -/
theorem recurse_files_eq (os : OSModel) (path : String) :
    ∀ L : List OSEntry,
      ((L.map entryToFileInfo).filterMap (fun nm =>
          match Stat os (joinPath path nm.Name) with
          | (_, some _) => none
          | (fi, none) => some fi))
        = ((L.filter (fun e => ((Stat os (joinPath path e.name)).2).isNone)).map
            (fun e => (Stat os (joinPath path e.name)).1)) := by
  intro L
  induction L with
  | nil => rfl
  | cons a t ih =>
    simp only [List.map_cons, List.filterMap_cons, List.filter_cons,
      entryToFileInfo]
    rcases hse : Stat os (joinPath path a.name) with ⟨st, o2⟩
    rcases o2 with _ | e2
    · simp [hse, ih]
    · simp [hse, ih]

/-- Claim C8, amended: `RecurseFS` has no error channel at all, and errors
partway through the traversal never abort it: a failing top-level stat or
listing yields the empty list for that (sub)call, while a failing per-entry
stat is skipped (`continue`) and the traversal goes on with the remaining
entries.  Formally, over any oracle whose directory listings carry
pairwise-distinct names, the traversal is identical to the traversal of the
purged oracle in which every entry with a failing stat has been erased from
its listing. -/
theorem RecurseFS_skips_failing (os : OSModel)
    (hnd : ∀ q l, os.readDirEntries q = .ok l → (l.map OSEntry.name).Nodup) :
    ∀ (fuel : Nat) (path : String),
      RecurseFS os fuel path = RecurseFS (purgeOS os) fuel path := by
  intro fuel
  induction fuel with
  | zero => intro path; rfl
  | succ n ih =>
    intro path
    simp only [RecurseFS, Stat_purgeOS]
    rcases hstat : Stat os path with ⟨fi, o⟩
    rcases o with _ | e
    · dsimp only
      rcases hrd : os.readDirEntries path with e2 | l
      · simp [ReadDir, purgeOS, hrd]
      · have hnodup := hnd path l hrd
        have hprd : (purgeOS os).readDirEntries path
            = .ok (l.filter (fun e => ((Stat os (joinPath path e.name)).2).isNone)) := by
          simp [purgeOS, hrd]
        simp only [ReadDir, hrd, hprd]
        rw [sortByName_filter _ l hnodup]
        rw [recurse_files_eq os path (sortByName l)]
        rw [recurse_files_eq os path ((sortByName l).filter _)]
        rw [List.filter_filter]
        simp only [Bool.and_self]
        simp only [ih]
    · rfl

/-- Witness for the amended C8: over `skipOS` — whose only listing has the
distinct names `b`, `c.txt` — the traversal equals the traversal of the
purged oracle with the failing entry `b` erased. -/
theorem RecurseFS_skips_failing_witness :
    RecurseFS skipOS 2 "/a" = RecurseFS (purgeOS skipOS) 2 "/a" :=
  RecurseFS_skips_failing skipOS (fun q l h => by
    by_cases hq : q = "/a"
    · subst hq
      have hv : skipOS.readDirEntries "/a" = .ok [entC, entB2] := rfl
      have h2 := hv.symm.trans h
      injection h2 with h3
      rw [← h3]
      decide
    · exfalso
      have hv : skipOS.readDirEntries q = .error .notFound := by
        simp [skipOS, hq]
      rw [hv] at h
      exact Except.noConfusion h) 2 "/a"
